import Mathlib

/-!
Verification of the ACTAPP JSON document store, the AI gateway response
handling, and the HTTP error envelopes, shallowly embedded from
src/server/services/storage.js, src/server/services/ai.js,
src/server/middleware/errorHandler.js and the authentication middleware.

Conventions of the embedding:
* A collection file is modelled by its parse status and parsed record list
  (serialization via JSON.stringify/JSON.parse is abstracted: a round trip
  is the identity on JSON-compatible records).
* Fallible filesystem calls take an explicit injected-fault argument.
* The cooperative Node.js scheduling of concurrent insert calls is
  modelled as an explicit interleaving of the atomic segments between the
  await points of the source.
-/

namespace ActApp

namespace Storage

/-- State of the backing JSON file of one collection (DATA_DIR/name):
the file may be absent, present but failing JSON.parse, or present with
contents that parse to a record list. -/
inductive FileState (α : Type) where
  | absent : FileState α
  | corrupt : FileState α
  | good (data : List α) : FileState α
  deriving DecidableEq, Repr

/-- Body of read(filename, defaultValue) (storage.js lines 42-56) before
the surrounding try/catch: an absent file returns the default, a file
whose contents fail JSON.parse throws, a good file returns its parsed
data. -/
def readRaw {α : Type} (fs : FileState α) (defaultValue : List α) :
    Except String (List α) :=
  match fs with
  | .absent => .ok defaultValue
  | .corrupt => .error "JSON.parse error"
  | .good data => .ok data

/-- read(filename, defaultValue) (storage.js lines 42-56): the try/catch
wrapper logs any error and returns defaultValue instead of propagating
it. -/
def read {α : Type} (fs : FileState α) (defaultValue : List α) : List α :=
  match readRaw fs defaultValue with
  | .ok v => v
  | .error _ => defaultValue

/-- On-disk view of one collection around write (storage.js lines 63-85):
the canonical filepath and the temporary path filepath +
".tmp." + Date.now(); none means the file does not exist.  Contents are
the serialized JSON text. -/
structure DiskState where
  canonical : Option String
  temp : Option String
  deriving DecidableEq, Repr

/-- Injected failure point for write (storage.js lines 63-85): the
writeFileSync to the temp path throws, or the renameSync throws. -/
inductive WriteFault where
  | tempWrite
  | renameStep
  deriving DecidableEq, Repr

/-- write(filename, data) (storage.js lines 63-85): the full new contents
are written to the temp path, which is then atomically renamed onto the
canonical path.  On a failure the catch block unlinks the temp file if it
exists and rethrows the error; the canonical file is never touched except
by the atomic rename.  Returns the outcome of the call together with the
resulting disk state. -/
def write (fs : DiskState) (content : String) (fault : Option WriteFault) :
    Except String Unit × DiskState :=
  match fault with
  | some .tempWrite => (.error "write error", { canonical := fs.canonical, temp := none })
  | some .renameStep => (.error "rename error", { canonical := fs.canonical, temp := none })
  | none => (.ok (), { canonical := some content, temp := none })

/-- Disk state when the process crashes at step k of write (storage.js
lines 63-85): 0 = before the temp write, 1 = partway through the temp
write (the temp path holds an arbitrary fragment frag of the new text),
2 = after the temp write but before the rename, 3 or later = after the
atomic rename. -/
def writeCrash (fs : DiskState) (content frag : String) (k : Nat) : DiskState :=
  match k with
  | 0 => fs
  | 1 => { canonical := fs.canonical, temp := some frag }
  | 2 => { canonical := fs.canonical, temp := some content }
  | _ + 3 => { canonical := some content, temp := none }

/-- What a concurrent or subsequent read observes: only the canonical
path (read builds its filepath without the temp component). -/
def readerView (d : DiskState) : Option String := d.canonical

/-- Index of the first record satisfying p: JS Array.prototype.findIndex,
with none standing for -1. -/
def firstIdx {α : Type} (p : α → Bool) : List α → Option Nat
  | [] => none
  | x :: xs => if p x then some 0 else (firstIdx p xs).map (· + 1)

/-- In-place element assignment data[i] = f data[i] (a list beyond whose
end i points is returned unchanged, as JS assignment past the end cannot
happen here: i always comes from findIndex). -/
def assignAt {α : Type} (f : α → α) : List α → Nat → List α
  | [], _ => []
  | x :: xs, 0 => f x :: xs
  | x :: xs, n + 1 => x :: assignAt f xs n

/-- insert(filename, item) (storage.js lines 106-111): read the current
contents, push the item, write the result back; returns the inserted item
unchanged together with the new file state. -/
def insert {α : Type} (fs : FileState α) (item : α) : α × FileState α :=
  let data := read fs []
  (item, .good (data ++ [item]))

/-- update(filename, predicate, updates) (storage.js lines 116-127).
applyUpdates stands for the shallow merge of the fixed partial-field
object updates onto a record, the spread expression of line 124.  Returns
the merged record (none for the JS null when nothing matches), the
resulting file state, and whether write was called. -/
def update {α : Type} (fs : FileState α) (predicate : α → Bool)
    (applyUpdates : α → α) : Option α × FileState α × Bool :=
  let data := read fs []
  match firstIdx predicate data with
  | none => (none, fs, false)
  | some i => ((data.get? i).map applyUpdates, .good (assignAt applyUpdates data i), true)

/-- remove(filename, predicate) (storage.js lines 132-143): find the first
match; if none, return false without writing, otherwise splice exactly
that record out and write the collection back, returning true.  The third
component records whether write was called. -/
def remove {α : Type} (fs : FileState α) (predicate : α → Bool) :
    Bool × FileState α × Bool :=
  let data := read fs []
  match firstIdx predicate data with
  | none => (false, fs, false)
  | some i => (true, .good (data.eraseIdx i), true)

/-- Direction of the optional sort argument of paginate. -/
inductive SortOrder where
  | asc
  | desc
  deriving DecidableEq, Repr

/-- A sort argument to paginate: the record field consulted (modelled as
an integer-valued projection, matching the numeric fields the routes sort
on) and the direction. -/
structure SortSpec (α : Type) where
  field : α → Int
  order : SortOrder

/-- The comparator of storage.js lines 153-158, literally: it returns 1 or
-1 and never 0 (strict greater-than comparison on the field value). -/
def comparator {α : Type} (s : SortSpec α) (a b : α) : Int :=
  match s.order with
  | .desc => if s.field b > s.field a then 1 else -1
  | .asc => if s.field a > s.field b then 1 else -1

/-- The total preorder induced by the comparator: the comparator keeps a
before b when it returns a negative value.  ECMA-262 requires
Array.prototype.sort to be stable, and for this comparator the stable
order is computed by a stable insertion sort with respect to this
preorder. -/
def keepsBefore {α : Type} (s : SortSpec α) (a b : α) : Prop :=
  comparator s a b < 0

instance {α : Type} (s : SortSpec α) : DecidableRel (keepsBefore s) :=
  fun a b => inferInstanceAs (Decidable (comparator s a b < 0))

instance {α : Type} (s : SortSpec α) : IsTotal α (keepsBefore s) where
  total a b := by
    obtain ⟨f, ord⟩ := s
    unfold keepsBefore comparator
    cases ord <;> dsimp only <;> split_ifs <;> omega

instance {α : Type} (s : SortSpec α) : IsTrans α (keepsBefore s) where
  trans a b c hab hbc := by
    obtain ⟨f, ord⟩ := s
    unfold keepsBefore comparator at hab hbc ⊢
    cases ord <;> dsimp only at hab hbc ⊢ <;> split_ifs at hab hbc ⊢ <;> omega

/-- JS Array.prototype.slice(s, e) over integer arguments (ECMA-262
22.1.3.25: a negative index counts from the end of the array, then the
range is clamped to the array bounds). -/
def jsSlice {α : Type} (l : List α) (s e : Int) : List α :=
  let len : Int := l.length
  let k : Int := if s < 0 then max (len + s) 0 else min s len
  let f : Int := if e < 0 then max (len + e) 0 else min e len
  (l.take f.toNat).drop k.toNat

/-- Result object of paginate (storage.js lines 166-172). -/
structure PageResult (α : Type) where
  items : List α
  page : Int
  limit : Nat
  total : Nat
  totalPages : Nat
  deriving DecidableEq, Repr

/-- paginate(filename, predicate, page, limit, sort) (storage.js lines
148-173): read, filter, optionally sort with the comparator, then slice
[(page-1)*limit, (page-1)*limit + limit).  page keeps the signed JS
integers; limit is modelled as a natural number and assumed positive in
the theorems (Math.ceil(total/limit) equals (total + limit - 1) / limit
for positive limit; JS division by zero lies outside this integer
model). -/
def paginate {α : Type} (fs : FileState α) (predicate : α → Bool)
    (page : Int) (limit : Nat) (sort : Option (SortSpec α)) : PageResult α :=
  let data := read fs []
  let data := data.filter predicate
  let data := match sort with
    | none => data
    | some s => data.insertionSort (keepsBefore s)
  let total := data.length
  let totalPages := (total + limit - 1) / limit
  let start : Int := (page - 1) * limit
  { items := jsSlice data start (start + limit)
    page := page
    limit := limit
    total := total
    totalPages := totalPages }

end Storage

namespace Concurrency

/-- Phase of one in-flight insert call, cut at the await points of insert
and write (storage.js lines 63-85 and 106-111): started = not yet read;
readDone snap = await read returned the snapshot snap, before
acquireLock; locked snap = the lock was acquired; finished = the locked
task wrote and released the lock. -/
inductive InsPhase (α : Type) where
  | started
  | readDone (snap : List α)
  | locked (snap : List α)
  | finished
  deriving DecidableEq, Repr

/-- One in-flight insert call: the record it inserts and its phase. -/
structure InsTask (α : Type) where
  item : α
  phase : InsPhase α
  deriving DecidableEq, Repr

/-- Process state: the durable collection contents, the fileLocks entry
for this collection, and the in-flight insert calls. -/
structure Sys (α : Type) where
  store : List α
  lock : Bool
  tasks : List (InsTask α)
  deriving DecidableEq, Repr

/-- Run task i up to its next await boundary.  read snapshots the current
store contents synchronously (readFileSync); acquireLock spins without
changing state while the lock is held and otherwise checks and sets it
within one synchronous turn; a locked task runs
writeFileSync + renameSync + releaseLock synchronously, writing its
snapshot plus its own item.  A finished or missing task leaves the state
unchanged. -/
def stepTask {α : Type} (s : Sys α) (i : Nat) : Sys α :=
  match s.tasks.get? i with
  | none => s
  | some t =>
    match t.phase with
    | .started =>
        { s with tasks := s.tasks.set i { t with phase := .readDone s.store } }
    | .readDone snap =>
        if s.lock then s
        else { s with lock := true, tasks := s.tasks.set i { t with phase := .locked snap } }
    | .locked snap =>
        { store := snap ++ [t.item], lock := false,
          tasks := s.tasks.set i { t with phase := .finished } }
    | .finished => s

/-- Run a whole cooperative schedule, one task step at a time. -/
def runSched {α : Type} : Sys α → List Nat → Sys α
  | s, [] => s
  | s, i :: sched => runSched (stepTask s i) sched

/-- Initial state for N concurrent insert calls against the same initially
empty collection. -/
def initSys {α : Type} (items : List α) : Sys α :=
  { store := [], lock := false, tasks := items.map fun x => ⟨x, .started⟩ }

/-- All insert calls have returned successfully. -/
def allFinished {α : Type} (s : Sys α) : Bool :=
  s.tasks.all fun t => t.phase matches .finished

end Concurrency

namespace Ai

/-- The message object of one completion choice; content is optional
because the provider may omit it (JS undefined / null). -/
structure AiMsg where
  content : Option String
  deriving DecidableEq, Repr

/-- One element of the choices array of the API response body. -/
structure AiChoice where
  message : Option AiMsg
  deriving DecidableEq, Repr

/-- The optional error object of the API response body. -/
structure AiErr where
  message : Option String
  deriving DecidableEq, Repr

/-- A successfully parsed JSON response body of the chat completions
endpoint, restricted to the fields ai.js consults. -/
structure AiBody where
  error : Option AiErr
  choices : Option (List AiChoice)
  deriving DecidableEq, Repr

/-- JS expression v || d for an optional string v: undefined and the
empty string are falsy. -/
def jsOrStr (v : Option String) (d : String) : String :=
  match v with
  | some s => if s == "" then d else s
  | none => d

/-- The res.on(end) handler of chat (ai.js lines 85-102) after JSON.parse
succeeded: a non-200 status rejects with the remote message or a generic
status-derived message; otherwise the guard
response.choices && response.choices[0] && response.choices[0].message
selects between resolving choices[0].message.content and rejecting with
the invalid-format error. -/
def handleResponse (statusCode : Nat) (body : AiBody) :
    Except String (Option String) :=
  if statusCode ≠ 200 then
    .error (jsOrStr (body.error.bind AiErr.message) ("API error: " ++ toString statusCode))
  else
    match body.choices with
    | some (c :: _) =>
        match c.message with
        | some m => .ok m.content
        | none => .error "Invalid API response format"
    | _ => .error "Invalid API response format"

/-- The message object of the first completion choice, when the choices
array exists and is non-empty and its first element has a message. -/
def firstMessage (body : AiBody) : Option AiMsg :=
  match body.choices with
  | some (c :: _) => c.message
  | _ => none

end Ai

namespace Http

/-- JSON values, for modelling the response envelope literals. -/
inductive JVal where
  | jnull
  | jbool (b : Bool)
  | jnum (n : Int)
  | jstr (s : String)
  | jarr (items : List JVal)
  | jobj (fields : List (String × JVal))

/-- A JSON object body as an ordered field list. -/
def Body := List (String × JVal)

/-- Whether a response body carries the given field. -/
def hasField (body : Body) (k : String) : Bool :=
  (List.lookup k body).isSome

/-- The envelope literal passed to res.json by the error handler
(errorHandler.js lines 32-36): success, message and errors only. -/
def errorEnvelope (message : String) (errors : List String) : Body :=
  [("success", .jbool false),
   ("message", .jstr message),
   ("errors", .jarr (errors.map .jstr))]

/-- The err argument of the error handler middleware, restricted to the
fields errorHandler.js consults.  errors models err.errors abstractly as
the list of messages it yields (for a ValidationError the source maps
Object.values(err.errors) to their message fields; that extraction is
abstracted to the resulting string list).  message is the empty string
when err.message is absent (both are falsy). -/
structure ErrInput where
  name : String
  statusCode : Option Nat
  status : Option Nat
  message : String
  errors : Option (List String)
  hasBody : Bool

/-- errorHandler (errorHandler.js lines 5-37): defaults, the
ValidationError and body SyntaxError overrides, the production rule that
mutes 500 details, and the final envelope.  A statusCode of 0 is falsy in
JS, hence mapped to 500 like an absent one. -/
def errorHandler (production : Bool) (err : ErrInput) : Nat × Body :=
  let isValidation := err.name == "ValidationError"
  let isJsonSyntax := err.name == "SyntaxError" && err.status == some 400 && err.hasBody
  let statusCode :=
    if isJsonSyntax then 400
    else if isValidation then 400
    else match err.statusCode with
      | some n => if n == 0 then 500 else n
      | none => 500
  let muted := production && statusCode == 500
  let message :=
    if muted then "Internal server error"
    else if isJsonSyntax then "Invalid JSON"
    else if isValidation then "Validation error"
    else if err.message == "" then "Internal server error"
    else err.message
  let errors :=
    if muted then []
    else if isJsonSyntax then ["Request body contains invalid JSON"]
    else err.errors.getD []
  (statusCode, errorEnvelope message errors)

/-- The 401 envelope of the authentication middleware: success, message
and errors only. -/
def authFailureBody : Body :=
  [("success", .jbool false),
   ("message", .jstr "Authentication required"),
   ("errors", .jarr [.jstr "Please log in to access this resource"])]

/-- A representative success envelope from the routes (the timezones
response of the settings module), carrying all four fields. -/
def timezonesBody : Body :=
  [("success", .jbool true),
   ("data", .jobj [("timezones", .jarr
      ((["America/New_York", "America/Chicago", "America/Denver",
         "America/Los_Angeles", "America/Anchorage", "Pacific/Honolulu",
         "Europe/London", "Europe/Paris", "Europe/Berlin", "Asia/Tokyo",
         "Asia/Shanghai", "Asia/Singapore", "Australia/Sydney",
         "UTC"] : List String).map .jstr))]),
   ("message", .jstr "Timezones retrieved"),
   ("errors", .jarr [])]

end Http

/-- A record with a numeric score field, for the sort-correctness
scenario (records whose score fields are 3, 1 and 2). -/
structure ScoreRec where
  id : Nat
  score : Int
  deriving DecidableEq, Repr

namespace Storage

theorem firstIdx_eq_none {α : Type} (p : α → Bool) (l : List α)
    (h : ∀ x ∈ l, p x = false) : firstIdx p l = none := by
  induction l with
  | nil => rfl
  | cons x xs ih =>
    have hx : p x = false := h x (List.mem_cons_self x xs)
    have hxs : firstIdx p xs = none := ih fun y hy => h y (List.mem_cons_of_mem x hy)
    simp [firstIdx, hx, hxs]

theorem firstIdx_some_get {α : Type} {p : α → Bool} {l : List α} {i : Nat}
    (h : firstIdx p l = some i) : ∃ x, l.get? i = some x ∧ p x = true := by
  induction l generalizing i with
  | nil => simp [firstIdx] at h
  | cons x xs ih =>
    by_cases hp : p x
    · simp [firstIdx, hp] at h
      subst h
      exact ⟨x, rfl, hp⟩
    · simp [firstIdx, hp] at h
      obtain ⟨j, hj, rfl⟩ := h
      obtain ⟨y, hy, hpy⟩ := ih hj
      exact ⟨y, by simpa using hy, hpy⟩

theorem firstIdx_some_min {α : Type} {p : α → Bool} {l : List α} {i : Nat}
    (h : firstIdx p l = some i) :
    ∀ j x, j < i → l.get? j = some x → p x = false := by
  induction l generalizing i with
  | nil => simp [firstIdx] at h
  | cons x xs ih =>
    by_cases hp : p x
    · simp [firstIdx, hp] at h
      subst h
      intro j y hj
      omega
    · simp [firstIdx, hp] at h
      obtain ⟨j0, hj0, rfl⟩ := h
      intro j y hj hy
      cases j with
      | zero =>
        simp at hy
        subst hy
        simpa using hp
      | succ k =>
        exact ih hj0 k y (by omega) (by simpa using hy)

theorem assignAt_length {α : Type} (f : α → α) (l : List α) (i : Nat) :
    (assignAt f l i).length = l.length := by
  induction l generalizing i with
  | nil => rfl
  | cons x xs ih =>
    cases i with
    | zero => rfl
    | succ n => simp [assignAt, ih]

theorem assignAt_get?_self {α : Type} (f : α → α) (l : List α) (i : Nat) :
    (assignAt f l i).get? i = (l.get? i).map f := by
  induction l generalizing i with
  | nil => simp [assignAt]
  | cons x xs ih =>
    cases i with
    | zero => rfl
    | succ n => simpa [assignAt] using ih n

theorem assignAt_get?_ne {α : Type} (f : α → α) (l : List α) (i j : Nat)
    (h : j ≠ i) : (assignAt f l i).get? j = l.get? j := by
  induction l generalizing i j with
  | nil => simp [assignAt]
  | cons x xs ih =>
    cases i with
    | zero =>
      cases j with
      | zero => exact absurd rfl h
      | succ k => rfl
    | succ n =>
      cases j with
      | zero => rfl
      | succ k => simpa [assignAt] using ih n k (by omega)

theorem eraseIdx_eq_take_drop {α : Type} (l : List α) (i : Nat) :
    l.eraseIdx i = l.take i ++ l.drop (i + 1) := by
  induction l generalizing i with
  | nil => simp
  | cons x xs ih =>
    cases i with
    | zero => rfl
    | succ n => simpa [List.eraseIdx] using ih n

theorem jsSlice_nat {α : Type} (l : List α) (s m : Nat) :
    jsSlice l (s : Int) ((s : Int) + (m : Int)) = (l.drop s).take m := by
  have hs : ¬ ((s : Int) < 0) := by omega
  have he : ¬ ((s : Int) + (m : Int) < 0) := by omega
  simp only [jsSlice]
  rw [if_neg hs, if_neg he]
  have h1 : (min ((s : Int) + (m : Int)) ((l.length : Nat) : Int)).toNat
      = min (s + m) l.length := by omega
  have h2 : (min (s : Int) ((l.length : Nat) : Int)).toNat = min s l.length := by omega
  rw [h1, h2]
  rcases le_or_lt s l.length with hsl | hsl
  · rw [Nat.min_eq_left hsl]
    rcases le_or_lt (s + m) l.length with hml | hml
    · rw [Nat.min_eq_left hml, List.drop_take]
      congr 1
      omega
    · rw [Nat.min_eq_right hml.le, List.take_length,
        List.take_of_length_le (by simp [List.length_drop]; omega : (l.drop s).length ≤ m)]
  · rw [Nat.min_eq_right hsl.le, Nat.min_eq_right (by omega : l.length ≤ s + m),
      List.take_length, List.drop_eq_nil_of_le le_rfl,
      List.drop_eq_nil_of_le hsl.le, List.take_nil]

theorem jsSlice_sublist {α : Type} (l : List α) (s e : Int) :
    (jsSlice l s e).Sublist l := by
  unfold jsSlice
  exact List.Sublist.trans (List.drop_sublist _ _) (List.take_sublist _ _)

end Storage

/-- C1: the claimed mutual-exclusion guarantee fails on the code.  Two
concurrent insert calls against the same initially empty collection, with
distinct records 0 and 1, are run under the cooperative schedule in which
both calls pass their await read before either acquires the lock — the
schedule Node.js itself produces for Promise.all of two inserts, since
insert reads outside the lock.  Both calls finish (succeed), yet the
final collection holds exactly one record, [1]: the first insert is lost.
A fully serialized schedule of the same two calls does yield both
records, confirming the model. -/
theorem insert_lost_update :
    Concurrency.allFinished
        (Concurrency.runSched (Concurrency.initSys [0, 1]) [0, 1, 0, 0, 1, 1]) = true
    ∧ (Concurrency.runSched (Concurrency.initSys [0, 1]) [0, 1, 0, 0, 1, 1]).store = [1]
    ∧ (Concurrency.runSched (Concurrency.initSys [0, 1]) [0, 1, 0, 0, 1, 1]).store.length = 1
    ∧ Concurrency.allFinished
        (Concurrency.runSched (Concurrency.initSys [0, 1]) [0, 0, 0, 1, 1, 1]) = true
    ∧ (Concurrency.runSched (Concurrency.initSys [0, 1]) [0, 0, 0, 1, 1, 1]).store = [0, 1] := by
  decide

/-- C2: write materializes the complete new contents at the temp path and
installs them with a single atomic rename, so a reader (which consults
only the canonical path) observes either the old full contents or the new
full contents at every crash point; if the temp write (or the rename)
fails, the temp artifact is deleted, the error is propagated, and the
canonical contents are unchanged. -/
theorem write_atomic (fs : Storage.DiskState) (content : String) :
    Storage.write fs content (some .tempWrite)
      = (.error "write error", { canonical := fs.canonical, temp := none })
    ∧ Storage.write fs content (some .renameStep)
      = (.error "rename error", { canonical := fs.canonical, temp := none })
    ∧ Storage.write fs content none
      = (.ok (), { canonical := some content, temp := none })
    ∧ ∀ frag k,
        Storage.readerView (Storage.writeCrash fs content frag k) = Storage.readerView fs
        ∨ Storage.readerView (Storage.writeCrash fs content frag k) = some content := by
  refine ⟨rfl, rfl, rfl, fun frag k => ?_⟩
  match k with
  | 0 => exact Or.inl rfl
  | 1 => exact Or.inl rfl
  | 2 => exact Or.inl rfl
  | n + 3 => exact Or.inr rfl

/-- C5: update with a predicate matching no record returns the absent
marker (none) and remove returns false, and in both cases no write is
performed (third component false) and the stored file state is returned
unchanged. -/
theorem update_remove_no_match {α : Type} (fs : Storage.FileState α)
    (predicate : α → Bool) (applyUpdates : α → α)
    (h : ∀ x ∈ Storage.read fs [], predicate x = false) :
    Storage.update fs predicate applyUpdates = (none, fs, false)
    ∧ Storage.remove fs predicate = (false, fs, false) := by
  have hn : Storage.firstIdx predicate (Storage.read fs []) = none :=
    Storage.firstIdx_eq_none _ _ h
  constructor
  · simp [Storage.update, hn]
  · simp [Storage.remove, hn]

/-- Witness for C5 at the concrete collection [1, 2, 3] with a predicate
matching nothing. -/
theorem update_remove_no_match_witness :
    (∀ x ∈ Storage.read (Storage.FileState.good [1, 2, 3]) ([] : List Nat),
        (fun y => decide (y = 7)) x = false)
    ∧ (Storage.update (Storage.FileState.good [1, 2, 3]) (fun y => decide (y = 7))
          (fun y => y + 1) = (none, Storage.FileState.good [1, 2, 3], false)
      ∧ Storage.remove (Storage.FileState.good [1, 2, 3]) (fun y => decide (y = 7))
          = (false, Storage.FileState.good [1, 2, 3], false)) :=
  ⟨by decide, update_remove_no_match _ _ _ (by decide)⟩

/-- C6: insert appends the record to the current contents and returns it
unchanged; a subsequent read yields a sequence one longer than before
whose last element is the inserted record. -/
theorem insert_roundtrip {α : Type} (fs : Storage.FileState α) (r : α) :
    (Storage.insert fs r).1 = r
    ∧ Storage.read (Storage.insert fs r).2 [] = Storage.read fs [] ++ [r]
    ∧ (Storage.read (Storage.insert fs r).2 []).length = (Storage.read fs []).length + 1
    ∧ (Storage.read (Storage.insert fs r).2 []).getLast? = some r := by
  refine ⟨rfl, rfl, ?_, List.getLast?_concat _⟩
  show (Storage.read fs [] ++ [r]).length = _
  simp

/-- C7: read never propagates a storage error to the caller: a missing
file and a file whose contents fail to parse both yield the default (the
inner body raises a parse error on a corrupt file, and the catch wrapper
swallows it), while a good file yields its parsed contents; read is a
total function into the data type, so no error reaches the caller. -/
theorem read_swallows_errors {α : Type} (defaultValue data : List α) :
    Storage.read Storage.FileState.absent defaultValue = defaultValue
    ∧ Storage.readRaw (Storage.FileState.corrupt (α := α)) defaultValue
        = .error "JSON.parse error"
    ∧ Storage.read Storage.FileState.corrupt defaultValue = defaultValue
    ∧ Storage.read (Storage.FileState.good data) defaultValue = data :=
  ⟨rfl, rfl, rfl, rfl⟩

/-- C10: with at least one match (the first match sitting at index i),
update merges exactly the record at index i, keeps it at index i, leaves
every other record unchanged at its position, preserves the length, and
returns the merged record; remove returns true and deletes exactly the
record at index i, preserving the relative order of the rest; moreover i
indeed carries a matching record and every earlier index does not. -/
theorem update_remove_first_match {α : Type} (fs : Storage.FileState α)
    (predicate : α → Bool) (applyUpdates : α → α) (i : Nat)
    (h : Storage.firstIdx predicate (Storage.read fs []) = some i) :
    (Storage.update fs predicate applyUpdates).1
      = ((Storage.read fs []).get? i).map applyUpdates
    ∧ (Storage.read (Storage.update fs predicate applyUpdates).2.1 []).length
        = (Storage.read fs []).length
    ∧ (∀ j, j ≠ i →
        (Storage.read (Storage.update fs predicate applyUpdates).2.1 []).get? j
          = (Storage.read fs []).get? j)
    ∧ (Storage.read (Storage.update fs predicate applyUpdates).2.1 []).get? i
        = ((Storage.read fs []).get? i).map applyUpdates
    ∧ (Storage.remove fs predicate).1 = true
    ∧ Storage.read (Storage.remove fs predicate).2.1 []
        = (Storage.read fs []).take i ++ (Storage.read fs []).drop (i + 1)
    ∧ (∃ x, (Storage.read fs []).get? i = some x ∧ predicate x = true)
    ∧ (∀ j x, j < i → (Storage.read fs []).get? j = some x → predicate x = false) := by
  have hu : Storage.update fs predicate applyUpdates
      = (((Storage.read fs []).get? i).map applyUpdates,
         .good (Storage.assignAt applyUpdates (Storage.read fs []) i), true) := by
    simp [Storage.update, h]
  have hr : Storage.remove fs predicate
      = (true, .good ((Storage.read fs []).eraseIdx i), true) := by
    simp [Storage.remove, h]
  refine ⟨?_, ?_, ?_, ?_, ?_, ?_, ?_, ?_⟩
  · rw [hu]
  · rw [hu]
    exact Storage.assignAt_length _ _ _
  · intro j hj
    rw [hu]
    exact Storage.assignAt_get?_ne _ _ _ _ hj
  · rw [hu]
    exact Storage.assignAt_get?_self _ _ _
  · rw [hr]
  · rw [hr]
    exact Storage.eraseIdx_eq_take_drop _ _
  · exact Storage.firstIdx_some_get h
  · exact Storage.firstIdx_some_min h

/-- Witness for C10 at the collection [1, 2, 3], the predicate matching
the record 2 (index 1), and the merge adding 10. -/
theorem update_remove_first_match_witness :
    Storage.firstIdx (fun y => decide (y = 2)) (Storage.read (Storage.FileState.good [1, 2, 3]) []) = some 1
    ∧ ((Storage.update (Storage.FileState.good [1, 2, 3]) (fun y => decide (y = 2)) (fun y => y + 10)).1
        = ((Storage.read (Storage.FileState.good [1, 2, 3]) []).get? 1).map (fun y => y + 10)
      ∧ (Storage.read (Storage.update (Storage.FileState.good [1, 2, 3]) (fun y => decide (y = 2)) (fun y => y + 10)).2.1 []).length
          = (Storage.read (Storage.FileState.good [1, 2, 3]) []).length
      ∧ (∀ j, j ≠ 1 →
          (Storage.read (Storage.update (Storage.FileState.good [1, 2, 3]) (fun y => decide (y = 2)) (fun y => y + 10)).2.1 []).get? j
            = (Storage.read (Storage.FileState.good [1, 2, 3]) []).get? j)
      ∧ (Storage.read (Storage.update (Storage.FileState.good [1, 2, 3]) (fun y => decide (y = 2)) (fun y => y + 10)).2.1 []).get? 1
          = ((Storage.read (Storage.FileState.good [1, 2, 3]) []).get? 1).map (fun y => y + 10)
      ∧ (Storage.remove (Storage.FileState.good [1, 2, 3]) (fun y => decide (y = 2))).1 = true
      ∧ Storage.read (Storage.remove (Storage.FileState.good [1, 2, 3]) (fun y => decide (y = 2))).2.1 []
          = (Storage.read (Storage.FileState.good [1, 2, 3]) []).take 1
            ++ (Storage.read (Storage.FileState.good [1, 2, 3]) []).drop 2
      ∧ (∃ x, (Storage.read (Storage.FileState.good [1, 2, 3]) []).get? 1 = some x
            ∧ (fun y => decide (y = 2)) x = true)
      ∧ (∀ j x, j < 1 →
          (Storage.read (Storage.FileState.good [1, 2, 3]) []).get? j = some x
          → (fun y => decide (y = 2)) x = false)) :=
  ⟨by decide, update_remove_first_match _ _ _ 1 (by decide)⟩

/-- C3 counterexample: the claim fails for pageNumber below 1.  For 25
matching records, pageSize 10 and pageNumber -1, the start index
(page - 1) * limit = -20 is negative, and JS slice counts negative
indices from the end of the array, so paginate returns items[5..15) —
neither the empty list nor a (partial) final page, and not the claimed
slice of the half-open index range [-20, -10), which contains no valid
index and would be empty. -/
theorem paginate_negative_page_cex :
    (Storage.paginate (Storage.FileState.good (List.range 25)) (fun _ => true)
        (-1) 10 none).items = [5, 6, 7, 8, 9, 10, 11, 12, 13, 14]
    ∧ (Storage.paginate (Storage.FileState.good (List.range 25)) (fun _ => true)
        (-1) 10 none).items ≠ []
    ∧ (Storage.paginate (Storage.FileState.good (List.range 25)) (fun _ => true)
        (-1) 10 none).items ≠ ((List.range 25).drop 20).take 10 := by
  decide

/-- C3 amended: for every collection, predicate, pageNumber at least 1
and positive pageSize, paginate returns the filtered items sliced to the
half-open index range [(pageNumber-1)*pageSize, pageNumber*pageSize),
with total the count after filtering before slicing and totalPages the
ceiling of total / pageSize; a pageNumber at least 1 that is out of range
yields an empty or partial final page.  (For pageNumber below 1 the
result follows the end-relative JS slice semantics instead and can be a
nonempty slice from the middle of the list, as the counterexample
shows.) -/
theorem paginate_spec {α : Type} (fs : Storage.FileState α) (predicate : α → Bool)
    (page limit : Nat) (hp : 1 ≤ page) (hl : 1 ≤ limit) :
    (Storage.paginate fs predicate (page : Int) limit none).items
      = (((Storage.read fs []).filter predicate).drop ((page - 1) * limit)).take limit
    ∧ (Storage.paginate fs predicate (page : Int) limit none).total
      = ((Storage.read fs []).filter predicate).length
    ∧ (Storage.paginate fs predicate (page : Int) limit none).totalPages
      = ((Storage.read fs []).filter predicate).length ⌈/⌉ limit := by
  refine ⟨?_, rfl, ?_⟩
  · show Storage.jsSlice ((Storage.read fs []).filter predicate)
        (((page : Int) - 1) * limit) ((((page : Int) - 1) * limit) + limit) = _
    have hcast : ((page : Int) - 1) * limit = (((page - 1) * limit : Nat) : Int) := by
      rw [Nat.cast_mul, Nat.cast_sub hp, Nat.cast_one]
    rw [hcast]
    exact Storage.jsSlice_nat _ _ _
  · show (((Storage.read fs []).filter predicate).length + limit - 1) / limit = _
    rw [Nat.ceilDiv_eq_add_pred_div]

/-- Witness for C3 amended: page 3 with pageSize 10 over 25 records
returns items[20..25), total 25 and totalPages 3 (ceiling of 25/10). -/
theorem paginate_spec_witness :
    (1 ≤ 3 ∧ 1 ≤ 10)
    ∧ ((Storage.paginate (Storage.FileState.good (List.range 25)) (fun _ => true)
          ((3 : Nat) : Int) 10 none).items
        = (((Storage.read (Storage.FileState.good (List.range 25)) []).filter
            (fun _ => true)).drop ((3 - 1) * 10)).take 10
      ∧ (Storage.paginate (Storage.FileState.good (List.range 25)) (fun _ => true)
          ((3 : Nat) : Int) 10 none).total
        = ((Storage.read (Storage.FileState.good (List.range 25)) []).filter
            (fun _ => true)).length
      ∧ (Storage.paginate (Storage.FileState.good (List.range 25)) (fun _ => true)
          ((3 : Nat) : Int) 10 none).totalPages
        = ((Storage.read (Storage.FileState.good (List.range 25)) []).filter
            (fun _ => true)).length ⌈/⌉ 10) :=
  ⟨⟨by decide, by decide⟩,
   paginate_spec (Storage.FileState.good (List.range 25)) (fun _ => true) 3 10
     (by decide) (by decide)⟩

/-- C4: paginate with a sort specification on a single field orders the
filtered records by that field with the strict greater-than comparator in
the requested direction: for records whose score field takes the values
3, 1, 2 in stored order, sorting descending yields scores 3, 2, 1 and
sorting ascending yields 1, 2, 3; in general the returned items are
pairwise ordered by the comparator-induced preorder (ties are not
resolved further, so equal keys keep their stored order under the stable
sort). -/
theorem paginate_sort_spec :
    (Storage.paginate
        (Storage.FileState.good [ScoreRec.mk 1 3, ScoreRec.mk 2 1, ScoreRec.mk 3 2])
        (fun _ => true) 1 10 (some ⟨ScoreRec.score, .desc⟩)).items
      = [ScoreRec.mk 1 3, ScoreRec.mk 3 2, ScoreRec.mk 2 1]
    ∧ (Storage.paginate
        (Storage.FileState.good [ScoreRec.mk 1 3, ScoreRec.mk 2 1, ScoreRec.mk 3 2])
        (fun _ => true) 1 10 (some ⟨ScoreRec.score, .asc⟩)).items
      = [ScoreRec.mk 2 1, ScoreRec.mk 3 2, ScoreRec.mk 1 3]
    ∧ ∀ {α : Type} (fs : Storage.FileState α) (predicate : α → Bool) (page : Int)
        (limit : Nat) (s : Storage.SortSpec α),
        (Storage.paginate fs predicate page limit (some s)).items.Pairwise
          (Storage.keepsBefore s) := by
  refine ⟨by decide, by decide, ?_⟩
  intro α fs predicate page limit s
  have hsorted : List.Sorted (Storage.keepsBefore s)
      (List.insertionSort (Storage.keepsBefore s)
        ((Storage.read fs []).filter predicate)) :=
    List.sorted_insertionSort _ _
  exact List.Pairwise.sublist (Storage.jsSlice_sublist _ _ _) hsorted

/-- C8 counterexample: a 200-status response whose body parses as JSON
and has a first completion whose message object lacks a content field
makes chat resolve with the absent content (JS undefined) rather than
fail with the invalid-format error: the guard of ai.js lines 94-98 checks
only down to the message object, not its content. -/
theorem chat_null_content_cex :
    Ai.handleResponse 200
        { error := none, choices := some [{ message := some { content := none } }] }
      = Except.ok none
    ∧ Ai.firstMessage
        { error := none, choices := some [{ message := some { content := none } }] }
      = some { content := none } :=
  ⟨rfl, rfl⟩

/-- C8 amended: for every 200-status response whose body parses as JSON,
chat fails with the invalid-response-format error exactly when the
choices array, its first element, or the message of the first element is
absent; otherwise it resolves with the content field of that message —
which is passed through as-is and may itself be the absent value (JS
undefined/null) when the provider omits it. -/
theorem chat_response_contract (body : Ai.AiBody) :
    Ai.handleResponse 200 body
      = (match Ai.firstMessage body with
         | some m => Except.ok m.content
         | none => Except.error "Invalid API response format") := by
  obtain ⟨err, choices⟩ := body
  cases choices with
  | none => rfl
  | some cs =>
    cases cs with
    | nil => rfl
    | cons c rest =>
      obtain ⟨m⟩ := c
      cases m <;> rfl

/-- C9 counterexample: the envelope produced by the error handler
middleware for a generic 500 error carries success, message and errors
but no data field, refuting the claim that every response body produced
by the application contains all four fields; the 401 envelope of the
authentication middleware also lacks data. -/
theorem error_envelope_missing_data_cex :
    Http.hasField (Http.errorHandler false
        { name := "Error", statusCode := some 500, status := none,
          message := "boom", errors := none, hasBody := false }).2 "data" = false
    ∧ Http.hasField (Http.errorHandler false
        { name := "Error", statusCode := some 500, status := none,
          message := "boom", errors := none, hasBody := false }).2 "success" = true
    ∧ Http.hasField Http.authFailureBody "data" = false := by
  decide

/-- C9 amended: success envelopes carry all four fields success, data,
message and errors (shown for the representative timezones response),
while the error envelopes produced by the error handler middleware — for
every error input and environment — and by the authentication middleware
carry success, message and errors but omit data. -/
theorem envelope_shape (production : Bool) (err : Http.ErrInput) :
    Http.hasField (Http.errorHandler production err).2 "success" = true
    ∧ Http.hasField (Http.errorHandler production err).2 "message" = true
    ∧ Http.hasField (Http.errorHandler production err).2 "errors" = true
    ∧ Http.hasField (Http.errorHandler production err).2 "data" = false
    ∧ Http.hasField Http.authFailureBody "success" = true
    ∧ Http.hasField Http.authFailureBody "message" = true
    ∧ Http.hasField Http.authFailureBody "errors" = true
    ∧ Http.hasField Http.authFailureBody "data" = false
    ∧ Http.hasField Http.timezonesBody "success" = true
    ∧ Http.hasField Http.timezonesBody "data" = true
    ∧ Http.hasField Http.timezonesBody "message" = true
    ∧ Http.hasField Http.timezonesBody "errors" = true :=
  ⟨rfl, rfl, rfl, rfl, rfl, rfl, rfl, rfl, rfl, rfl, rfl, rfl⟩

end ActApp
